import Mathlib

set_option maxRecDepth 4000

/-!
Verification development for the jumpcloud_password_hash server.

The Go source (package `server`) is shallowly embedded below:

* `SHA512.hashBytes` embeds the SHA-512 computation performed by the Go
  standard library (`crypto/sha512`, FIPS 180-4) that `hashPassword` calls;
  machine words are `Nat` values reduced modulo `2^64`.
* `base64UrlEncode` embeds `base64.URLEncoding.EncodeToString` (RFC 4648
  URL-safe alphabet, with padding), as called by `hashPassword`.
* `ServerState` collects the package-level mutable variables
  (`pwdHashedMap`, `pwdHashedCount`, `pwdTotalTime`, `shutDown`), the Go map
  being modelled as an association list with replace-on-insert semantics.
* `handleHashPost`, `handleHashGet`, `handleStats`, `handleShutDown` and
  `delayAndAdd` embed the handler functions; every mutex-protected critical
  section of the source becomes one atomic function application here, and a
  system-level small-step relation (`stepEv`) interleaves handler runs with
  the delayed `delayAndAdd` goroutines they spawn.
-/

namespace SHA512

/-- The modulus of 64-bit machine words. -/
def M : Nat := 2^64

/-- Right rotation of a 64-bit word (input assumed `< 2^64`). -/
def rotr (n x : Nat) : Nat := x / 2^n + (x % 2^n) * 2^(64-n)

/-- Logical right shift. -/
def shr (n x : Nat) : Nat := x / 2^n

/-- Bitwise complement of a 64-bit word. -/
def bnot (x : Nat) : Nat := (M - 1) - x

/-- The SHA-512 choice function. -/
def ch (x y z : Nat) : Nat := (x &&& y) ^^^ (bnot x &&& z)

/-- The SHA-512 majority function. -/
def maj (x y z : Nat) : Nat := (x &&& y) ^^^ (x &&& z) ^^^ (y &&& z)

/-- The SHA-512 Σ₀ function. -/
def bigSigma0 (x : Nat) : Nat := rotr 28 x ^^^ rotr 34 x ^^^ rotr 39 x

/-- The SHA-512 Σ₁ function. -/
def bigSigma1 (x : Nat) : Nat := rotr 14 x ^^^ rotr 18 x ^^^ rotr 41 x

/-- The SHA-512 σ₀ function. -/
def smallSigma0 (x : Nat) : Nat := rotr 1 x ^^^ rotr 8 x ^^^ shr 7 x

/-- The SHA-512 σ₁ function. -/
def smallSigma1 (x : Nat) : Nat := rotr 19 x ^^^ rotr 61 x ^^^ shr 6 x

/-- The 80 SHA-512 round constants. -/
def K : List Nat :=
  [4794697086780616226, 8158064640168781261, 13096744586834688815,
   16840607885511220156, 4131703408338449720, 6480981068601479193,
   10538285296894168987, 12329834152419229976, 15566598209576043074,
   1334009975649890238, 2608012711638119052, 6128411473006802146,
   8268148722764581231, 9286055187155687089, 11230858885718282805,
   13951009754708518548, 16472876342353939154, 17275323862435702243,
   1135362057144423861, 2597628984639134821, 3308224258029322869,
   5365058923640841347, 6679025012923562964, 8573033837759648693,
   10970295158949994411, 12119686244451234320, 12683024718118986047,
   13788192230050041572, 14330467153632333762, 15395433587784984357,
   489312712824947311, 1452737877330783856, 2861767655752347644,
   3322285676063803686, 5560940570517711597, 5996557281743188959,
   7280758554555802590, 8532644243296465576, 9350256976987008742,
   10552545826968843579, 11727347734174303076, 12113106623233404929,
   14000437183269869457, 14369950271660146224, 15101387698204529176,
   15463397548674623760, 17586052441742319658, 1182934255886127544,
   1847814050463011016, 2177327727835720531, 2830643537854262169,
   3796741975233480872, 4115178125766777443, 5681478168544905931,
   6601373596472566643, 7507060721942968483, 8399075790359081724,
   8693463985226723168, 9568029438360202098, 10144078919501101548,
   10430055236837252648, 11840083180663258601, 13761210420658862357,
   14299343276471374635, 14566680578165727644, 15097957966210449927,
   16922976911328602910, 17689382322260857208, 500013540394364858,
   748580250866718886, 1242879168328830382, 1977374033974150939,
   2944078676154940804, 3659926193048069267, 4368137639120453308,
   4836135668995329356, 5532061633213252278, 6448918945643986474,
   6902733635092675308, 7801388544844847127]

/-- The SHA-512 initial hash value. -/
def H0 : List Nat :=
  [7640891576956012808, 13503953896175478587, 4354685564936845355,
   11912009170470909681, 5840696475078001361, 11170449401992604703,
   2270897969802886507, 6620516959819538809]

/-- The eight working variables of the compression function. -/
structure Vars where
  a : Nat
  b : Nat
  c : Nat
  d : Nat
  e : Nat
  f : Nat
  g : Nat
  h : Nat

/-- Load the eight working variables from a hash-value list. -/
def varsOfList (l : List Nat) : Vars :=
  ⟨l.getD 0 0, l.getD 1 0, l.getD 2 0, l.getD 3 0,
   l.getD 4 0, l.getD 5 0, l.getD 6 0, l.getD 7 0⟩

/-- One round of the SHA-512 compression function;
`kw` is the pair of round constant and message-schedule word. -/
def round (s : Vars) (kw : Nat × Nat) : Vars :=
  let t1 := (s.h + bigSigma1 s.e + ch s.e s.f s.g + kw.1 + kw.2) % M
  let t2 := (bigSigma0 s.a + maj s.a s.b s.c) % M
  ⟨(t1 + t2) % M, s.a, s.b, s.c, (s.d + t1) % M, s.e, s.f, s.g⟩

/-- Extend a partial message schedule by one word. -/
def schedStep (w : List Nat) : List Nat :=
  let t := w.length
  w ++ [(smallSigma1 (w.getD (t-2) 0) + w.getD (t-7) 0 +
         smallSigma0 (w.getD (t-15) 0) + w.getD (t-16) 0) % M]

/-- The 80-word message schedule obtained from the 16 words of a block. -/
def schedule (w16 : List Nat) : List Nat :=
  (List.range 64).foldl (fun w _ => schedStep w) w16

/-- Process one 1024-bit block, updating the eight-word hash value. -/
def compressBlock (hs : List Nat) (blk : List Nat) : List Nat :=
  let w := schedule blk
  let s0 := varsOfList hs
  let s := (K.zip w).foldl round s0
  [(s0.a + s.a) % M, (s0.b + s.b) % M, (s0.c + s.c) % M, (s0.d + s.d) % M,
   (s0.e + s.e) % M, (s0.f + s.f) % M, (s0.g + s.g) % M, (s0.h + s.h) % M]

/-- Big-endian byte rendering of a number into exactly `k` bytes. -/
def natToBytesBE : Nat → Nat → List Nat
  | _, 0 => []
  | n, k+1 => natToBytesBE (n / 256) k ++ [n % 256]

/-- Read a big-endian word from a byte list. -/
def bytesToWord (bs : List Nat) : Nat := bs.foldl (fun a b => a * 256 + b) 0

/-- Group a byte list into big-endian 64-bit words (dropping any ragged tail;
padded input is always a multiple of 8 bytes). -/
def words64 : List Nat → List Nat
  | b0 :: b1 :: b2 :: b3 :: b4 :: b5 :: b6 :: b7 :: rest =>
      bytesToWord [b0, b1, b2, b3, b4, b5, b6, b7] :: words64 rest
  | _ => []

/-- Group a word list into 16-word blocks (dropping any ragged tail;
padded input is always a multiple of 16 words). -/
def blocks16 : List Nat → List (List Nat)
  | w0 :: w1 :: w2 :: w3 :: w4 :: w5 :: w6 :: w7 ::
    w8 :: w9 :: w10 :: w11 :: w12 :: w13 :: w14 :: w15 :: rest =>
      [w0, w1, w2, w3, w4, w5, w6, w7, w8, w9, w10, w11, w12, w13, w14, w15] ::
        blocks16 rest
  | _ => []

/-- SHA-512 message padding: a 0x80 byte, zeros, then the 128-bit
big-endian bit length, reaching a multiple of 128 bytes. -/
def pad (msg : List Nat) : List Nat :=
  let l := msg.length
  let z := (128 - ((l + 17) % 128)) % 128
  msg ++ [0x80] ++ List.replicate z 0 ++ natToBytesBE (8 * l) 16

/-- SHA-512 of a byte list, producing the 64 digest bytes.  This embeds the
`sha512.New`/`Write`/`Sum` combination used by the server's `hashPassword`. -/
def hashBytes (msg : List Nat) : List Nat :=
  let blks := blocks16 (words64 (pad msg))
  let hfin := blks.foldl compressBlock H0
  (hfin.map (fun x => natToBytesBE x 8)).flatten

end SHA512

/-- UTF-8 encoding of one character, as Go's `[]byte(string)` conversion
produces. -/
def utf8Bytes (c : Char) : List Nat :=
  let n := c.toNat
  if n < 0x80 then [n]
  else if n < 0x800 then [0xC0 + n / 64, 0x80 + n % 64]
  else if n < 0x10000 then [0xE0 + n / 4096, 0x80 + (n / 64) % 64, 0x80 + n % 64]
  else [0xF0 + n / 262144, 0x80 + (n / 4096) % 64, 0x80 + (n / 64) % 64, 0x80 + n % 64]

/-- The bytes of a string, as Go's `[]byte( password )` conversion produces. -/
def strBytes (s : String) : List Nat := (s.data.map utf8Bytes).flatten

/-- Character `n` of the RFC 4648 URL-safe base64 alphabet used by Go's
`base64.URLEncoding`. -/
def b64Char (n : Nat) : Char :=
  "ABCDEFGHIJKLMNOPQRSTUVWXYZabcdefghijklmnopqrstuvwxyz0123456789-_".data.getD n 'A'

/-- URL-safe base64 with padding, embedding
`base64.URLEncoding.EncodeToString`. -/
def base64UrlEncode : List Nat → List Char
  | [] => []
  | [b1] => [b64Char (b1 / 4), b64Char ((b1 % 4) * 16), '=', '=']
  | [b1, b2] => [b64Char (b1 / 4), b64Char ((b1 % 4) * 16 + b2 / 16),
                 b64Char ((b2 % 16) * 4), '=']
  | b1 :: b2 :: b3 :: rest =>
      b64Char (b1 / 4) :: b64Char ((b1 % 4) * 16 + b2 / 16) ::
      b64Char ((b2 % 16) * 4 + b3 / 64) :: b64Char (b3 % 64) :: base64UrlEncode rest

/-- Embeds the server's `hashPassword`: SHA-512 of the password bytes,
rendered with `base64.URLEncoding`. -/
def hashPassword (password : String) : String :=
  String.mk (base64UrlEncode (SHA512.hashBytes (strBytes password)))

/-- HTTP method of a request, as the handlers inspect `r.Method`. -/
inductive Method
  | GET
  | POST
deriving DecidableEq

/-- The package-level mutable state of the server.  `pwdHashedMap` models the
Go map `map[int64]string` as an association list (insertion replaces the
entry of an existing key, so keys stay pairwise distinct and the list length
is the number of records).  `shutdownsScheduled` counts how many times
`handleShutDown` has launched its delayed `pwdServer.Shutdown` goroutine,
i.e. how many times the termination sequence has been scheduled. -/
structure ServerState where
  pwdHashedMap : List (Int × String)
  pwdHashedCount : Int
  pwdTotalTime : Int
  shutDown : Bool
  shutdownsScheduled : Nat
deriving DecidableEq

/-- The initial values of the package-level variables. -/
def initState : ServerState :=
  { pwdHashedMap := []
    pwdHashedCount := 0
    pwdTotalTime := 0
    shutDown := false
    shutdownsScheduled := 0 }

/-- Lookup in the modelled Go map, distinguishing absence. -/
def mapLookup (m : List (Int × String)) (k : Int) : Option String :=
  (m.find? (fun p => p.1 == k)).map (fun p => p.2)

/-- Go map indexing `pwdHashedMap[ id ]`: the zero value `""` when the key is
absent. -/
def mapGetGo (m : List (Int × String)) (k : Int) : String :=
  (mapLookup m k).getD ""

/-- Go map assignment `pwdHashedMap[ id ] = v`: replaces the entry when the
key is present, otherwise appends a new entry. -/
def mapInsert (m : List (Int × String)) (k : Int) (v : String) : List (Int × String) :=
  if (mapLookup m k).isSome then m.map (fun p => if p.1 == k then (k, v) else p)
  else m ++ [(k, v)]

/-- The fixed hashing delay (Go `pwdDelay = 5 * time.Second`), expressed in
the microsecond unit in which `pwdTotalTime` accumulates elapsed times. -/
def pwdDelay : Int := 5000000

/-- Embeds `delayAndAdd`'s critical section: under `pwdMutexMap`, increment
`pwdHashedCount`, store the hashed password under `id`, and add the elapsed
microseconds to `pwdTotalTime` — one atomic state transformation. -/
def delayAndAdd (st : ServerState) (id : Int) (password : String)
    (elapsedMicros : Int) : ServerState :=
  { st with
    pwdHashedCount := st.pwdHashedCount + 1
    pwdHashedMap := mapInsert st.pwdHashedMap id (hashPassword password)
    pwdTotalTime := st.pwdTotalTime + elapsedMicros }

/-- Embeds the whole `delayAndAdd` goroutine with explicit times: it sleeps
`pwdDelay` after its `startTime`, then hashes, then commits at `commitTime`
recording `time.Since(startTime)` microseconds. -/
def delayAndAddAt (st : ServerState) (id : Int) (password : String)
    (startTime commitTime : Int) : ServerState :=
  delayAndAdd st id password (commitTime - startTime)

/-- Go `r.FormValue( key )`: the first value of the field, or `""` when the
field is absent. -/
def formValue (form : List (String × String)) (key : String) : String :=
  (((form.find? (fun p => p.1 == key))).map (fun p => p.2)).getD ""

/-- Outcome of `handleHashPost`: an `http.Error` rejection with its status
code, or a 200 response whose body is the decimal id. -/
inductive PostOutcome
  | reject (status : Nat)
  | ok (id : Int)
deriving DecidableEq

/-- Result of one `handleHashPost` run: the response, the `delayAndAdd`
goroutine launched (id and password), if any, and whether the handler reached
the `shutdownMutex.RLock()` call. -/
structure PostResult where
  outcome : PostOutcome
  spawned : Option (Int × String)
  acquiredRLock : Bool
deriving DecidableEq

/-- Embeds `handleHashPost`: fast shutdown check (406), method check (405),
acquire the shared shutdown lock, read the `password` field (422 when empty
or absent), read `id := pwdHashedCount + 1` under `pwdMutexMap` without
incrementing it, spawn `delayAndAdd`, and answer the id. -/
def handleHashPost (st : ServerState) (method : Method)
    (form : List (String × String)) : PostResult :=
  if st.shutDown then ⟨.reject 406, none, false⟩
  else if method ≠ Method.POST then ⟨.reject 405, none, false⟩
  else
    let password := formValue form "password"
    if password = "" then ⟨.reject 422, none, true⟩
    else
      let id := st.pwdHashedCount + 1
      ⟨.ok id, some (id, password), true⟩

/-- Outcome of `handleHashGet`: an `http.Error` rejection with its status
code, or a 200 response whose body is the stored hash. -/
inductive GetOutcome
  | reject (status : Nat)
  | ok (body : String)
deriving DecidableEq

/-- Result of one `handleHashGet` run: the response and whether the handler
reached the `shutdownMutex.RLock()` call. -/
structure GetResult where
  outcome : GetOutcome
  acquiredRLock : Bool
deriving DecidableEq

/-- Go `path.Base`: empty path gives ".", a path of slashes gives "/",
otherwise trailing slashes are removed and the part after the last slash is
returned. -/
def pathBase (p : String) : String :=
  if p = "" then "."
  else
    let trimmed := (p.data.reverse.dropWhile (fun c => c == '/')).reverse
    if trimmed = [] then "/"
    else String.mk (trimmed.reverse.takeWhile (fun c => c != '/')).reverse

/-- Value of a character as a digit, as Go's strconv lower routine reads it. -/
def digitVal (c : Char) : Option Nat :=
  if 48 ≤ c.toNat ∧ c.toNat ≤ 57 then some (c.toNat - 48)
  else if 97 ≤ c.toNat ∧ c.toNat ≤ 122 then some (c.toNat - 97 + 10)
  else if 65 ≤ c.toNat ∧ c.toNat ≤ 90 then some (c.toNat - 65 + 10)
  else none

/-- Accumulate a digit string in the given base; `none` when empty or when
any character is not a digit below the base. -/
def parseDigits (base : Nat) (ds : List Char) : Option Nat :=
  if ds.isEmpty then none
  else ds.foldl
    (fun acc c =>
      match acc, digitVal c with
      | some a, some d => if d < base then some (a * base + d) else none
      | _, _ => none)
    (some 0)

/-- Base detection of Go `strconv.ParseInt` with base argument 0: a "0b",
"0o" or "0x" marker selects base 2, 8 or 16, a leading 0 followed by more
characters selects base 8, otherwise base 10. -/
def splitBase (cs : List Char) : Nat × List Char :=
  match cs with
  | '0' :: 'x' :: rest => (16, rest)
  | '0' :: 'X' :: rest => (16, rest)
  | '0' :: 'b' :: rest => (2, rest)
  | '0' :: 'B' :: rest => (2, rest)
  | '0' :: 'o' :: rest => (8, rest)
  | '0' :: 'O' :: rest => (8, rest)
  | '0' :: c :: rest => (8, c :: rest)
  | _ => (10, cs)

/-- Embeds Go `strconv.ParseInt( s, 0, 64 )` (underscore digit separators are
not modelled; no claim involves them).  Returns the value together with an ok
flag: a syntax error yields `(0, false)`, a value outside the signed 64-bit
range yields the clamped bound with `false`, as strconv documents.  The
handler below discards the flag, exactly as the source discards `err`. -/
def parseIntGo (s : String) : Int × Bool :=
  let cs := s.data
  let signed : Bool × List Char :=
    match cs with
    | '+' :: rest => (false, rest)
    | '-' :: rest => (true, rest)
    | _ => (false, cs)
  let bd := splitBase signed.2
  match parseDigits bd.1 bd.2 with
  | none => (0, false)
  | some n =>
    if signed.1 then
      if n > 2^63 then (-(2^63), false) else (-(n : Int), true)
    else
      if n ≥ 2^63 then (2^63 - 1, false) else ((n : Int), true)

/-- Embeds `handleHashGet`: fast shutdown check (406), method check (405),
acquire the shared shutdown lock, parse the id from the last path element
ignoring the parse error, look it up under `pwdMutexMap`, and answer 404 when
the Go map lookup produced the zero value `""`. -/
def handleHashGet (st : ServerState) (method : Method) (urlPath : String) : GetResult :=
  if st.shutDown then ⟨.reject 406, false⟩
  else if method ≠ Method.GET then ⟨.reject 405, false⟩
  else
    let id := (parseIntGo (pathBase urlPath)).1
    let hashedPassword := mapGetGo st.pwdHashedMap id
    if hashedPassword = "" then ⟨.reject 404, true⟩
    else ⟨.ok hashedPassword, true⟩

/-- Outcome of `handleStats`: an `http.Error` rejection with its status code,
or the 200 JSON body carrying the `Stat` struct's Total and Average fields. -/
inductive StatsOutcome
  | reject (status : Nat)
  | ok (total average : Int)
deriving DecidableEq

/-- Result of one `handleStats` run: the response and whether the handler
reached the `shutdownMutex.RLock()` call. -/
structure StatsResult where
  outcome : StatsOutcome
  acquiredRLock : Bool
deriving DecidableEq

/-- Embeds `handleStats`: fast shutdown check (406), method check (405),
acquire the shared shutdown lock, read the totals under `pwdMutexMap`, answer
404 when the count is zero, otherwise answer the count and the truncated
integer division of the cumulative microseconds by the count (Go int64
division truncates). -/
def handleStats (st : ServerState) (method : Method) : StatsResult :=
  if st.shutDown then ⟨.reject 406, false⟩
  else if method ≠ Method.GET then ⟨.reject 405, false⟩
  else
    let total := st.pwdTotalTime
    let count := st.pwdHashedCount
    if count = 0 then ⟨.reject 404, true⟩
    else ⟨.ok count (Int.tdiv total count), true⟩

/-- Outcome of `handleShutDown`: a 405 rejection or the 200 acknowledgement
body. -/
inductive ShutdownOutcome
  | reject (status : Nat)
  | ack (body : String)
deriving DecidableEq

/-- Embeds `handleShutDown`: method check (405); otherwise take the exclusive
shutdown lock, set `shutDown := true`, write the acknowledgement, and launch
the goroutine that sleeps `shutdownDelay` and calls `pwdServer.Shutdown` —
counted by `shutdownsScheduled`.  There is no already-shut-down check: every
accepted request performs the whole sequence again. -/
def handleShutDown (st : ServerState) (method : Method) : ShutdownOutcome × ServerState :=
  if method ≠ Method.GET then (.reject 405, st)
  else (.ack "Server Shutting Down!",
        { st with shutDown := true, shutdownsScheduled := st.shutdownsScheduled + 1 })

/-- Whole-system configuration: the store, the `delayAndAdd` goroutines
spawned but not yet committed (id, password, start time), and the ids the
accepted POST responses have returned, in order. -/
structure Sys where
  store : ServerState
  pending : List (Int × String × Int)
  returned : List Int
deriving DecidableEq

/-- The system at process start. -/
def initSys : Sys :=
  { store := initState, pending := [], returned := [] }

/-- Atomic events of an execution: a POST /hash carrying a password at a
start time, the wake-up and commit of the k-th pending goroutine at a time,
read-only GET /hash/ and GET /stats requests, and a GET /shutdown request. -/
inductive Event
  | post (password : String) (t : Int)
  | finish (k : Nat) (t : Int)
  | getReq (urlPath : String)
  | statsReq
  | shutdownReq

/-- Whether an event is a GET /shutdown request. -/
def Event.isShutdownReq : Event → Bool
  | .shutdownReq => true
  | _ => false

/-- Small-step interleaving semantics.  A `post` event runs
`handleHashPost`; when it spawns a goroutine the goroutine joins the pending
list and the returned id is recorded.  A `finish` event commits a pending
goroutine, which `time.Sleep( pwdDelay )` permits only once `pwdDelay` has
elapsed since its start time.  Read-only requests leave the state unchanged;
a shutdown request runs `handleShutDown`. -/
def stepEv (s : Sys) : Event → Sys
  | .post pwd t =>
      let r := handleHashPost s.store Method.POST [("password", pwd)]
      match r.outcome, r.spawned with
      | .ok rid, some (id, p) =>
          { s with pending := s.pending ++ [(id, p, t)], returned := s.returned ++ [rid] }
      | _, _ => s
  | .finish k t =>
      match s.pending[k]? with
      | some (id, p, t0) =>
          if t0 + pwdDelay ≤ t then
            { s with store := delayAndAddAt s.store id p t0 t,
                     pending := s.pending.eraseIdx k }
          else s
      | none => s
  | .getReq _ => s
  | .statsReq => s
  | .shutdownReq => { s with store := (handleShutDown s.store Method.GET).2 }

/-- Run a sequence of events from a configuration. -/
def run (s : Sys) (es : List Event) : Sys := es.foldl stepEv s

/-- Fold a list of commits `(id, password, elapsed)` into the store with
`delayAndAdd`. -/
def commitsFrom (st : ServerState) (l : List (Int × String × Int)) : ServerState :=
  l.foldl (fun s c => delayAndAdd s c.1 c.2.1 c.2.2) st

theorem if_bool_false {α : Sort u} (a b : α) : (if (false : Bool) = true then a else b) = b := rfl

theorem if_bool_true {α : Sort u} (a b : α) : (if (true : Bool) = true then a else b) = a := rfl

theorem mapLookup_nil (k : Int) : mapLookup [] k = none := rfl

theorem mapLookup_cons (p : Int × String) (m : List (Int × String)) (k : Int) :
    mapLookup (p :: m) k = if p.1 == k then some p.2 else mapLookup m k := by
  by_cases h : p.1 = k
  · simp [mapLookup, List.find?_cons_of_pos, h]
  · have hb : (p.1 == k) = false := by simpa using h
    simp [mapLookup, List.find?_cons_of_neg, hb, h]

theorem mapLookup_append_single (m : List (Int × String)) (k : Int) (v : String)
    (h : mapLookup m k = none) : mapLookup (m ++ [(k, v)]) k = some v := by
  induction m with
  | nil => simp [mapLookup]
  | cons p m ih =>
      rw [mapLookup_cons] at h
      rw [List.cons_append, mapLookup_cons]
      by_cases hp : p.1 = k
      · simp [hp] at h
      · have hb : (p.1 == k) = false := by simpa using hp
        rw [hb, if_bool_false] at h ⊢
        exact ih h

theorem mapLookup_append_ne (m : List (Int × String)) (k k' : Int) (v : String)
    (h : k' ≠ k) : mapLookup (m ++ [(k, v)]) k' = mapLookup m k' := by
  have h1 : ((k : Int) == k') = false := by simpa using fun hk => h hk.symm
  induction m with
  | nil =>
      rw [List.nil_append, mapLookup_cons]
      rw [h1, if_bool_false]
  | cons p m ih =>
      rw [List.cons_append, mapLookup_cons, mapLookup_cons]
      by_cases hq : p.1 = k'
      · have hb : (p.1 == k') = true := by simpa using hq
        rw [hb, if_bool_true, if_bool_true]
      · have hb : (p.1 == k') = false := by simpa using hq
        rw [hb, if_bool_false, if_bool_false]
        exact ih

theorem mapLookup_replace_self (m : List (Int × String)) (k : Int) (v : String)
    (h : (mapLookup m k).isSome) :
    mapLookup (m.map (fun p => if p.1 == k then (k, v) else p)) k = some v := by
  induction m with
  | nil => simp [mapLookup] at h
  | cons p m ih =>
      rw [mapLookup_cons] at h
      by_cases hp : p.1 = k
      · have hb : (p.1 == k) = true := by simpa using hp
        simp only [List.map_cons, hb, if_bool_true]
        rw [mapLookup_cons]
        simp
      · have hb : (p.1 == k) = false := by simpa using hp
        rw [hb, if_bool_false] at h
        simp only [List.map_cons, hb, if_bool_false]
        rw [mapLookup_cons, hb, if_bool_false]
        exact ih h

theorem mapLookup_replace_ne (m : List (Int × String)) (k k' : Int) (v : String)
    (h : k' ≠ k) :
    mapLookup (m.map (fun p => if p.1 == k then (k, v) else p)) k' = mapLookup m k' := by
  have h1 : ((k : Int) == k') = false := by simpa using fun hk => h hk.symm
  induction m with
  | nil => simp
  | cons p m ih =>
      by_cases hp : p.1 = k
      · have hb : (p.1 == k) = true := by simpa using hp
        have hb' : (p.1 == k') = false := by
          simpa using fun hk => h (hp ▸ hk).symm
        simp only [List.map_cons, hb, if_bool_true, if_true]
        rw [mapLookup_cons, mapLookup_cons]
        dsimp only
        rw [h1, hb', if_bool_false, if_bool_false]
        exact ih
      · have hb : (p.1 == k) = false := by simpa using hp
        simp only [List.map_cons, hb, if_bool_false]
        rw [mapLookup_cons, mapLookup_cons]
        by_cases hq : p.1 = k'
        · have hb' : (p.1 == k') = true := by simpa using hq
          rw [hb', if_bool_true, if_bool_true]
        · have hb' : (p.1 == k') = false := by simpa using hq
          rw [hb', if_bool_false, if_bool_false]
          exact ih

theorem mapLookup_insert_self (m : List (Int × String)) (k : Int) (v : String) :
    mapLookup (mapInsert m k v) k = some v := by
  unfold mapInsert
  by_cases h : (mapLookup m k).isSome
  · simp only [h, if_true]
    exact mapLookup_replace_self m k v h
  · simp only [h, if_false]
    refine mapLookup_append_single m k v ?_
    cases hh : mapLookup m k
    · rfl
    · rw [hh] at h
      simp at h

theorem mapLookup_insert_ne (m : List (Int × String)) (k k' : Int) (v : String)
    (h : k' ≠ k) : mapLookup (mapInsert m k v) k' = mapLookup m k' := by
  unfold mapInsert
  by_cases hs : (mapLookup m k).isSome
  · simp only [hs, if_true]
    exact mapLookup_replace_ne m k k' v h
  · simp only [hs, if_false]
    exact mapLookup_append_ne m k k' v h

theorem mapInsert_length_absent (m : List (Int × String)) (k : Int) (v : String)
    (h : mapLookup m k = none) : (mapInsert m k v).length = m.length + 1 := by
  have hs : ¬ (mapLookup m k).isSome := by rw [h]; simp
  simp [mapInsert, hs]

theorem commitsFrom_nil (st : ServerState) : commitsFrom st [] = st := rfl

theorem commitsFrom_cons (st : ServerState) (c : Int × String × Int) (l : List (Int × String × Int)) :
    commitsFrom st (c :: l) = commitsFrom (delayAndAdd st c.1 c.2.1 c.2.2) l := rfl

theorem commitsFrom_count (l : List (Int × String × Int)) :
    ∀ st : ServerState, (commitsFrom st l).pwdHashedCount = st.pwdHashedCount + l.length := by
  induction l with
  | nil => intro st; simp [commitsFrom]
  | cons c l ih =>
      intro st
      rw [commitsFrom_cons, ih]
      simp [delayAndAdd]
      ring

theorem commitsFrom_map_length (l : List (Int × String × Int)) :
    ∀ st : ServerState, (∀ c ∈ l, mapLookup st.pwdHashedMap c.1 = none) →
    (l.map (fun c => c.1)).Nodup →
    (commitsFrom st l).pwdHashedMap.length = st.pwdHashedMap.length + l.length := by
  induction l with
  | nil => intro st _ _; simp [commitsFrom]
  | cons c l ih =>
      intro st hfresh hnodup
      rw [commitsFrom_cons]
      rw [List.map_cons] at hnodup
      have hnd := List.nodup_cons.mp hnodup
      have hcfresh := hfresh c (List.mem_cons_self c l)
      have hstep : (delayAndAdd st c.1 c.2.1 c.2.2).pwdHashedMap.length
          = st.pwdHashedMap.length + 1 := by
        show (mapInsert st.pwdHashedMap c.1 (hashPassword c.2.1)).length
            = st.pwdHashedMap.length + 1
        exact mapInsert_length_absent _ _ _ hcfresh
      have hrest : ∀ c' ∈ l,
          mapLookup (delayAndAdd st c.1 c.2.1 c.2.2).pwdHashedMap c'.1 = none := by
        intro c' hc'
        have hne : c'.1 ≠ c.1 := by
          intro he
          exact hnd.1 (List.mem_map.mpr ⟨c', hc', he⟩)
        show mapLookup (mapInsert st.pwdHashedMap c.1 (hashPassword c.2.1)) c'.1 = none
        rw [mapLookup_insert_ne _ _ _ _ hne]
        exact hfresh c' (List.mem_cons_of_mem _ hc')
      rw [ih _ hrest hnd.2, hstep]
      simp only [List.length_cons]
      omega

theorem compressBlock_length (hs blk : List Nat) : (SHA512.compressBlock hs blk).length = 8 := rfl

theorem foldl_compressBlock_length (blks : List (List Nat)) :
    ∀ hs : List Nat, hs.length = 8 → (blks.foldl SHA512.compressBlock hs).length = 8 := by
  induction blks with
  | nil => intro hs h; simpa using h
  | cons b blks ih =>
      intro hs h
      rw [List.foldl_cons]
      exact ih _ (compressBlock_length hs b)

theorem natToBytesBE_length (k : Nat) : ∀ n, (SHA512.natToBytesBE n k).length = k := by
  induction k with
  | zero => intro n; rfl
  | succ k ih => intro n; simp [SHA512.natToBytesBE, ih]

theorem flatten_bytes_length (l : List Nat) :
    ((l.map (fun x => SHA512.natToBytesBE x 8)).flatten).length = 8 * l.length := by
  induction l with
  | nil => simp
  | cons x l ih =>
      simp [ih, natToBytesBE_length]
      ring

theorem hashBytes_length (msg : List Nat) : (SHA512.hashBytes msg).length = 64 := by
  unfold SHA512.hashBytes
  rw [flatten_bytes_length, foldl_compressBlock_length _ SHA512.H0 (show SHA512.H0.length = 8 from rfl)]

theorem base64UrlEncode_length (bs : List Nat) :
    (base64UrlEncode bs).length = 4 * ((bs.length + 2) / 3) := by
  induction bs using base64UrlEncode.induct <;> simp [base64UrlEncode, *]
  omega

theorem hashPassword_length (pwd : String) : (hashPassword pwd).length = 88 := by
  have hmk : ∀ cs : List Char, (String.mk cs).length = cs.length := fun cs => rfl
  rw [hashPassword, hmk, base64UrlEncode_length, hashBytes_length]

theorem hashPassword_ne_empty (pwd : String) : hashPassword pwd ≠ "" := by
  intro h
  have hl := hashPassword_length pwd
  rw [h] at hl
  simp [String.length] at hl

theorem mapGetGo_empty_iff (m : List (Int × String)) (id : Int)
    (hv : ∀ p ∈ m, ∃ q, p.2 = hashPassword q) :
    (mapGetGo m id = "" ↔ mapLookup m id = none) := by
  unfold mapGetGo
  cases hh : mapLookup m id with
  | none => simp
  | some v =>
      have hv' : v ≠ "" := by
        have hh' := hh
        unfold mapLookup at hh'
        rw [Option.map_eq_some'] at hh'
        obtain ⟨p, hf, hpv⟩ := hh'
        obtain ⟨q, hq⟩ := hv p (List.mem_of_find?_eq_some hf)
        rw [← hpv, hq]
        exact hashPassword_ne_empty q
      simp [hv']

/-- C1: the code violates the claim.  Two POST /hash submissions that both
arrive before either delayed commit has run receive the same handle 1 (the
handler reads `pwdHashedCount + 1` without incrementing anything), and after
both goroutines commit, the map holds one record while the count says 2. -/
theorem C1_duplicate_handles :
    (run initSys [Event.post "a" 0, Event.post "b" 0]).returned = [1, 1] ∧
    ¬ (run initSys [Event.post "a" 0, Event.post "b" 0]).returned.Nodup ∧
    (run initSys [Event.post "a" 0, Event.post "b" 0,
        Event.finish 0 5000000, Event.finish 0 6000000]).store.pwdHashedCount = 2 ∧
    (run initSys [Event.post "a" 0, Event.post "b" 0,
        Event.finish 0 5000000, Event.finish 0 6000000]).store.pwdHashedMap.length = 1 :=
  ⟨by decide, by decide, by decide, by decide⟩

/-- C2 counterexample: a sequence of two commits that reuse handle 1 (which
the reservation bug makes reachable) leaves count 2 but only one record in
the map, so count does not equal the number of committed records. -/
theorem C2_counterexample :
    (commitsFrom initState [(1, ("a", 5)), (1, ("b", 7))]).pwdHashedCount = 2 ∧
    (commitsFrom initState [(1, ("a", 5)), (1, ("b", 7))]).pwdHashedMap.length = 1 :=
  ⟨by decide, by decide⟩

/-- C2 amended: every commit atomically (in the one `pwdMutexMap` critical
section) inserts the digest under its handle and increments the count by one
and the cumulative time by the elapsed duration; and after any sequence of
commits with pairwise-distinct handles from the initial state, count equals
the number of committed records in the map. -/
theorem C2_amended :
    (∀ (st : ServerState) (id : Int) (pwd : String) (e : Int),
       (delayAndAdd st id pwd e).pwdHashedCount = st.pwdHashedCount + 1 ∧
       mapLookup (delayAndAdd st id pwd e).pwdHashedMap id = some (hashPassword pwd) ∧
       (delayAndAdd st id pwd e).pwdTotalTime = st.pwdTotalTime + e) ∧
    (∀ l : List (Int × String × Int), (l.map (fun c => c.1)).Nodup →
       (commitsFrom initState l).pwdHashedCount
         = ((commitsFrom initState l).pwdHashedMap.length : Int)) := by
  constructor
  · intro st id pwd e
    exact ⟨rfl, mapLookup_insert_self _ _ _, rfl⟩
  · intro l hnodup
    rw [commitsFrom_count l initState,
        commitsFrom_map_length l initState (fun c _ => rfl) hnodup]
    simp [initState]

/-- Witness for C2 amended at a concrete two-commit sequence. -/
theorem C2_amended_witness :
    (commitsFrom initState [(1, ("a", 5)), (2, ("b", 7))]).pwdHashedCount
      = ((commitsFrom initState [(1, ("a", 5)), (2, ("b", 7))]).pwdHashedMap.length : Int) :=
  C2_amended.2 [(1, ("a", 5)), (2, ("b", 7))] (by decide)

/-- C3 counterexample: a second GET /shutdown is not a no-op — it schedules
the delayed `pwdServer.Shutdown` goroutine again, so the number of scheduled
terminations changes. -/
theorem C3_counterexample :
    (handleShutDown (handleShutDown initState Method.GET).2 Method.GET).2.shutdownsScheduled
      ≠ (handleShutDown initState Method.GET).2.shutdownsScheduled := by decide

/-- C3 amended: the flag starts false, only shutdown requests set it and no
event ever clears it (so once set it never reverts); but every GET /shutdown
request — not only the first — re-runs the termination-scheduling sequence. -/
theorem C3_amended :
    initState.shutDown = false ∧
    (∀ (s : Sys) (e : Event),
       (stepEv s e).store.shutDown = (s.store.shutDown || e.isShutdownReq)) ∧
    (∀ s : Sys, (stepEv s Event.shutdownReq).store.shutdownsScheduled
       = s.store.shutdownsScheduled + 1) ∧
    (∀ (s : Sys) (es : List Event), s.store.shutDown = true →
       (run s es).store.shutDown = true) := by
  have hb : ∀ (s : Sys) (e : Event),
      (stepEv s e).store.shutDown = (s.store.shutDown || e.isShutdownReq) := by
    intro s e
    cases e with
    | post pwd t =>
        simp only [stepEv, Event.isShutdownReq, Bool.or_false]
        split <;> rfl
    | finish k t =>
        simp only [stepEv, Event.isShutdownReq, Bool.or_false]
        split
        · split <;> rfl
        · rfl
    | getReq p => simp [stepEv, Event.isShutdownReq]
    | statsReq => simp [stepEv, Event.isShutdownReq]
    | shutdownReq => simp [stepEv, Event.isShutdownReq, handleShutDown]
  refine ⟨rfl, hb, ?_, ?_⟩
  · intro s
    simp [stepEv, handleShutDown]
  · intro s es
    induction es generalizing s with
    | nil => intro h; exact h
    | cons e es ih =>
        intro h
        show ((e :: es).foldl stepEv s).store.shutDown = true
        rw [List.foldl_cons]
        exact ih (stepEv s e) (by rw [hb, h]; exact Bool.true_or _)

/-- Witness for C3 amended: from an already-stopped store the flag stays
set across further events. -/
theorem C3_amended_witness :
    (run { store := { initState with shutDown := true }, pending := [], returned := [] }
        [Event.statsReq]).store.shutDown = true :=
  C3_amended.2.2.2 _ [Event.statsReq] rfl

/-- C4: when the shutdown flag is set, each of the three handlers answers
406 and never reaches its `shutdownMutex.RLock()` call — the fast-reject
check precedes the shared-permit acquisition. -/
theorem C4_fast_reject (st : ServerState) (method : Method)
    (form : List (String × String)) (urlPath : String) (h : st.shutDown = true) :
    handleHashPost st method form = ⟨PostOutcome.reject 406, none, false⟩ ∧
    handleHashGet st method urlPath = ⟨GetOutcome.reject 406, false⟩ ∧
    handleStats st method = ⟨StatsOutcome.reject 406, false⟩ := by
  refine ⟨?_, ?_, ?_⟩ <;> simp [handleHashPost, handleHashGet, handleStats, h]

/-- Witness for C4 at a stopped store. -/
theorem C4_fast_reject_witness :
    handleHashPost { initState with shutDown := true } Method.POST [("password", "x")]
      = ⟨PostOutcome.reject 406, none, false⟩ ∧
    handleHashGet { initState with shutDown := true } Method.GET "/hash/1"
      = ⟨GetOutcome.reject 406, false⟩ ∧
    handleStats { initState with shutDown := true } Method.GET
      = ⟨StatsOutcome.reject 406, false⟩ :=
  ⟨(C4_fast_reject { initState with shutDown := true } Method.POST [("password", "x")] "/hash/1" rfl).1,
   (C4_fast_reject { initState with shutDown := true } Method.GET [] "/hash/1" rfl).2.1,
   (C4_fast_reject { initState with shutDown := true } Method.GET [] "/hash/1" rfl).2.2⟩

/-- C5 counterexample: the digest of "angryMonkey" does not begin with the
text the claim quotes — it begins "ZEHhWB65gUlzdVwt…", diverging at
character 14. -/
theorem C5_counterexample :
    (hashPassword "angryMonkey").take 17 ≠ "ZEHhWB65gUlzdVZ1i" := by decide

/-- C5 amended: the digest function is deterministic, and
digest("angryMonkey") is the base64url SHA-512 text beginning
"ZEHhWB65gUlzdVwt…" (here proved in full). -/
theorem C5_amended :
    (∀ x : String, hashPassword x = hashPassword x) ∧
    hashPassword "angryMonkey"
      = "ZEHhWB65gUlzdVwtDQArEyx-KVLzp_aTaRaPlBzYRIFj6vjFdqEb0Q5B8zVKCZ0vKbZPZklJz0Fd7su2A-gf7Q==" :=
  ⟨fun _ => rfl, by decide⟩

/-- C6: the stats handler never divides by zero — a zero count yields 404,
and a positive count yields the count and the truncated average of the
cumulative microseconds. -/
theorem C6_stats_no_div_by_zero (st : ServerState) (h : st.shutDown = false) :
    (st.pwdHashedCount = 0 → handleStats st Method.GET = ⟨StatsOutcome.reject 404, true⟩) ∧
    (0 < st.pwdHashedCount →
       handleStats st Method.GET
         = ⟨StatsOutcome.ok st.pwdHashedCount (Int.tdiv st.pwdTotalTime st.pwdHashedCount), true⟩) := by
  constructor
  · intro h0
    simp [handleStats, h, h0]
  · intro hpos
    have hne : st.pwdHashedCount ≠ 0 := ne_of_gt hpos
    simp [handleStats, h, hne]

/-- Witness for C6 with an empty store and with three commits totalling 10
microseconds. -/
theorem C6_stats_no_div_by_zero_witness :
    handleStats initState Method.GET = ⟨StatsOutcome.reject 404, true⟩ ∧
    handleStats { pwdHashedMap := [], pwdHashedCount := 3, pwdTotalTime := 10,
                  shutDown := false, shutdownsScheduled := 0 } Method.GET
      = ⟨StatsOutcome.ok 3 (Int.tdiv 10 3), true⟩ :=
  ⟨(C6_stats_no_div_by_zero initState rfl).1 rfl,
   (C6_stats_no_div_by_zero _ rfl).2 (by decide)⟩

/-- C7 counterexample: a malformed (non-numeric) handle is answered with the
same 404 not-found as a well-formed unknown handle, not with a distinct
client-input 4xx — the `strconv.ParseInt` error is discarded. -/
theorem C7_counterexample :
    handleHashGet (delayAndAdd initState 1 "a" 5000000) Method.GET "/hash/abc"
      = ⟨GetOutcome.reject 404, true⟩ ∧
    handleHashGet (delayAndAdd initState 1 "a" 5000000) Method.GET "/hash/999"
      = ⟨GetOutcome.reject 404, true⟩ ∧
    parseIntGo "abc" = (0, false) :=
  ⟨by decide, by decide, by decide⟩

/-- C7 amended: a malformed handle parses to 0 with its error ignored and is
surfaced with the same 404 used for unknown handles; every well-formed
unknown or not-yet-committed handle also yields 404. -/
theorem C7_amended :
    (∀ (st : ServerState) (s : String), st.shutDown = false →
       parseIntGo (pathBase s) = (0, false) →
       mapLookup st.pwdHashedMap 0 = none →
       handleHashGet st Method.GET s = ⟨GetOutcome.reject 404, true⟩) ∧
    (∀ (st : ServerState) (s : String) (id : Int), st.shutDown = false →
       parseIntGo (pathBase s) = (id, true) →
       mapLookup st.pwdHashedMap id = none →
       handleHashGet st Method.GET s = ⟨GetOutcome.reject 404, true⟩) := by
  constructor
  · intro st s h hp hl
    simp [handleHashGet, h, hp, mapGetGo, hl]
  · intro st s id h hp hl
    simp [handleHashGet, h, hp, mapGetGo, hl]

/-- Witness for C7 amended on the empty store. -/
theorem C7_amended_witness :
    handleHashGet initState Method.GET "/hash/abc" = ⟨GetOutcome.reject 404, true⟩ ∧
    handleHashGet initState Method.GET "/hash/7" = ⟨GetOutcome.reject 404, true⟩ :=
  ⟨C7_amended.1 initState "/hash/abc" rfl (by decide) rfl,
   C7_amended.2 initState "/hash/7" 7 rfl (by decide) rfl⟩

/-- C8: an accepted submission's goroutine sleeps the configured delay (so
its commit time is at least startTime + pwdDelay), then commits the digest
of the secret under its handle together with the elapsed time
commitTime - startTime, which therefore includes the delay; and a pending
goroutine's finish event performs exactly this commit on the store. -/
theorem C8_deferred_processor (st : ServerState) (id : Int) (pwd : String)
    (startTime commitTime : Int) (h : startTime + pwdDelay ≤ commitTime) :
    mapLookup (delayAndAddAt st id pwd startTime commitTime).pwdHashedMap id
      = some (hashPassword pwd) ∧
    (delayAndAddAt st id pwd startTime commitTime).pwdTotalTime
      = st.pwdTotalTime + (commitTime - startTime) ∧
    (delayAndAddAt st id pwd startTime commitTime).pwdHashedCount
      = st.pwdHashedCount + 1 ∧
    pwdDelay ≤ commitTime - startTime ∧
    (∀ (s : Sys) (k : Nat), s.store = st → s.pending[k]? = some (id, pwd, startTime) →
       (stepEv s (Event.finish k commitTime)).store
         = delayAndAddAt st id pwd startTime commitTime) := by
  refine ⟨mapLookup_insert_self _ _ _, rfl, rfl, by omega, ?_⟩
  intro s k hs hk
  simp only [stepEv, hk]
  rw [if_pos h, hs]

/-- Witness for C8 with a commit exactly at the five-second mark. -/
theorem C8_deferred_processor_witness :
    mapLookup (delayAndAddAt initState 1 "a" 0 5000000).pwdHashedMap 1
      = some (hashPassword "a") ∧
    pwdDelay ≤ 5000000 - 0 :=
  ⟨(C8_deferred_processor initState 1 "a" 0 5000000 (by decide)).1,
   (C8_deferred_processor initState 1 "a" 0 5000000 (by decide)).2.2.2.1⟩

/-- C9: a POST /hash whose password field is present but empty is rejected
422 exactly like a missing field — `r.FormValue` cannot distinguish the two
— and no handle is issued and no goroutine is launched. -/
theorem C9_empty_password (st : ServerState) (h : st.shutDown = false) :
    handleHashPost st Method.POST [("password", "")] = ⟨PostOutcome.reject 422, none, true⟩ ∧
    handleHashPost st Method.POST [("password", "")]
      = handleHashPost st Method.POST [] := by
  have h1 : formValue [("password", "")] "password" = "" := rfl
  have h2 : formValue ([] : List (String × String)) "password" = "" := rfl
  constructor
  · simp [handleHashPost, h, h1]
  · simp [handleHashPost, h, h1, h2]

/-- Witness for C9 on the initial store. -/
theorem C9_empty_password_witness :
    handleHashPost initState Method.POST [("password", "")]
      = ⟨PostOutcome.reject 422, none, true⟩ ∧
    handleHashPost initState Method.POST [("password", "")]
      = handleHashPost initState Method.POST [] :=
  C9_empty_password initState rfl

/-- C10: every digest is 88 characters long, hence never the empty string,
so the retrieval handler's empty-string sentinel fires exactly when the
handle is absent from the map (assuming, as in every reachable state, that
all stored values are digests). -/
theorem C10_digest_nonempty :
    (∀ pwd : String, (hashPassword pwd).length = 88 ∧ hashPassword pwd ≠ "") ∧
    (∀ (m : List (Int × String)) (id : Int),
       (∀ p ∈ m, ∃ q, p.2 = hashPassword q) →
       (mapGetGo m id = "" ↔ mapLookup m id = none)) :=
  ⟨fun pwd => ⟨hashPassword_length pwd, hashPassword_ne_empty pwd⟩,
   fun m id hv => mapGetGo_empty_iff m id hv⟩

/-- Witness for C10 on a one-record map holding the digest of "a". -/
theorem C10_digest_nonempty_witness :
    mapGetGo [(1, hashPassword "a")] 2 = "" ↔ mapLookup [(1, hashPassword "a")] 2 = none :=
  C10_digest_nonempty.2 [(1, hashPassword "a")] 2 (by
    intro p hp
    rw [List.mem_singleton] at hp
    exact ⟨"a", by rw [hp]⟩)
